import Mathlib

/-!
Shallow embedding of the core of the `tsk-csai` client-side data-access layer:
the retry/backoff engine (`src/utils/retry.ts`), the error classifier
(`src/utils/error-handler.ts`), the token store (`auth-service`), the
authenticated HTTP pipeline's 401 refresh protocol (`src/services/api-client.ts`)
and the WebSocket connection manager (`src/lib/websocket-manager.ts`),
together with theorems settling the specification's claims about them.

JavaScript numbers used for delays and multipliers are modelled as rationals
(all the arithmetic the code performs on them is exact in this range);
epoch-second timestamps and status codes are naturals.  Host platform
primitives that are not part of the repository (`atob`/`JSON.parse`,
the browser task scheduler, the network) are modelled as explicit parameters
or as an explicit FIFO task queue, following the spec's single-threaded
cooperative concurrency model.
-/

namespace TskCsai

/-! ## Retry engine (`src/utils/retry.ts`) -/

/-- `RetryConfig` from `src/types/errors.ts` (the `retryableErrors` list is
never consulted by the retry engine and is omitted). -/
structure RetryConfig where
  maxAttempts : ℕ
  initialDelay : ℚ
  maxDelay : ℚ
  backoffMultiplier : ℚ
deriving DecidableEq

/-- `DEFAULT_RETRY_CONFIG` from `src/utils/retry.ts`. -/
def DEFAULT_RETRY_CONFIG : RetryConfig :=
  { maxAttempts := 3, initialDelay := 1000, maxDelay := 30000, backoffMultiplier := 2 }

/-- `getRetryDelay` from `src/utils/retry.ts`:
`min(initialDelay * backoffMultiplier^attempt, maxDelay)`. -/
def getRetryDelay (attempt : ℕ) (config : RetryConfig) : ℚ :=
  min (config.initialDelay * config.backoffMultiplier ^ attempt) config.maxDelay

/-- `shouldRetry` from `src/utils/retry.ts`: `attempt < config.maxAttempts`. -/
def shouldRetry (attempt : ℕ) (config : RetryConfig) : Bool :=
  attempt < config.maxAttempts

/-- Observable outcome of one `withRetry` run: the settled result
(`Except.error none` models the `throw lastError` fall-through with
`lastError` still `undefined`, reachable only when `maxAttempts = 0`),
the number of times `operation` was invoked, and the list of backoff
delays awaited, in order. -/
structure RetryTrace (E A : Type) where
  result : Except (Option E) A
  calls : ℕ
  delays : List ℚ

@[simp] theorem RetryTrace.result_mk {E A : Type} (r : Except (Option E) A) (c : ℕ)
    (d : List ℚ) : (⟨r, c, d⟩ : RetryTrace E A).result = r := rfl

@[simp] theorem RetryTrace.calls_mk {E A : Type} (r : Except (Option E) A) (c : ℕ)
    (d : List ℚ) : (⟨r, c, d⟩ : RetryTrace E A).calls = c := rfl

@[simp] theorem RetryTrace.delays_mk {E A : Type} (r : Except (Option E) A) (c : ℕ)
    (d : List ℚ) : (⟨r, c, d⟩ : RetryTrace E A).delays = d := rfl

/-- Whether the loop treats an error as retryable: `withRetry` aborts
immediately iff `shouldRetryError` was supplied and returned `false`
(`if (shouldRetryError && !shouldRetryError(error)) throw error`). -/
def retryableBy {E : Type} (p : Option (E → Bool)) (e : E) : Bool :=
  match p with
  | none => true
  | some f => f e

/-- The `for (let attempt = 0; attempt < config.maxAttempts; attempt++)` loop
body of `withRetry`.  `op attempt` is the settled outcome of the `attempt`-th
invocation of `operation`.  `fuel` counts the loop iterations still allowed;
the caller maintains `fuel = config.maxAttempts - attempt`, so `fuel = 0`
is exactly the loop guard `attempt < config.maxAttempts` failing, upon which
the code falls through to `throw lastError`. -/
def withRetryGo {E A : Type} (op : ℕ → Except E A) (config : RetryConfig)
    (p : Option (E → Bool)) : ℕ → ℕ → RetryTrace E A
  | _, 0 => ⟨Except.error none, 0, []⟩
  | attempt, fuel + 1 =>
    match op attempt with
    | Except.ok r => ⟨Except.ok r, 1, []⟩
    | Except.error e =>
      if retryableBy p e = false then
        ⟨Except.error (some e), 1, []⟩
      else if shouldRetry (attempt + 1) config = false then
        ⟨Except.error (some e), 1, []⟩
      else
        let rest := withRetryGo op config p (attempt + 1) fuel
        ⟨rest.result, rest.calls + 1, getRetryDelay attempt config :: rest.delays⟩

/-- `withRetry` from `src/utils/retry.ts`, as the trace of its loop started
at `attempt = 0`. -/
def withRetry {E A : Type} (op : ℕ → Except E A) (config : RetryConfig)
    (p : Option (E → Bool)) : RetryTrace E A :=
  withRetryGo op config p 0 config.maxAttempts

end TskCsai

namespace TskCsai

/-! ### Claim C4: backoff delay formula -/

/-- **C4 counterexample.**  As stated, the claim asserts monotonicity of
`computeDelay` in the attempt index for *every* retry config; with
`backoffMultiplier = 0` the delay drops from 1000 at attempt 0 to 0 at
attempt 1, so monotonicity fails for that config. -/
theorem getRetryDelay_not_monotone_for_all_configs :
    ¬ (getRetryDelay 0 ⟨3, 1000, 30000, 0⟩ ≤ getRetryDelay 1 ⟨3, 1000, 30000, 0⟩) := by
  simp only [getRetryDelay]
  norm_num

/-- **C4 (amended).**  `getRetryDelay n config` equals
`min(initialDelay * backoffMultiplier^n, maxDelay)` for every attempt and
config; it is monotonically non-decreasing in `n` for every config with
`initialDelay ≥ 0` and `backoffMultiplier ≥ 1` (the amendment: the claim's
unconditional monotonicity fails for multipliers below 1); and with
initialDelay 1000, maxDelay 30000, multiplier 2 it returns 1000 at attempt 0,
8000 at attempt 3 and 30000 at attempt 10. -/
theorem getRetryDelay_spec :
    (∀ (n : ℕ) (config : RetryConfig),
      getRetryDelay n config =
        min (config.initialDelay * config.backoffMultiplier ^ n) config.maxDelay)
    ∧ (∀ (n : ℕ) (config : RetryConfig), 0 ≤ config.initialDelay →
        1 ≤ config.backoffMultiplier →
        getRetryDelay n config ≤ getRetryDelay (n + 1) config)
    ∧ getRetryDelay 0 ⟨3, 1000, 30000, 2⟩ = 1000
    ∧ getRetryDelay 3 ⟨3, 1000, 30000, 2⟩ = 8000
    ∧ getRetryDelay 10 ⟨3, 1000, 30000, 2⟩ = 30000 := by
  refine ⟨fun n config => rfl, fun n config h0 h1 => ?_, by norm_num [getRetryDelay],
    by norm_num [getRetryDelay], by norm_num [getRetryDelay]⟩
  have hpow : config.backoffMultiplier ^ n ≤ config.backoffMultiplier ^ (n + 1) :=
    pow_le_pow_right₀ h1 (Nat.le_succ n)
  exact min_le_min (mul_le_mul_of_nonneg_left hpow h0) le_rfl

/-- **C4 witness**: the amended monotonicity at the concrete default-style
config, attempt 4 to 5. -/
theorem getRetryDelay_spec_witness :
    getRetryDelay 4 ⟨3, 1000, 30000, 2⟩ ≤ getRetryDelay 5 ⟨3, 1000, 30000, 2⟩ :=
  getRetryDelay_spec.2.1 4 ⟨3, 1000, 30000, 2⟩ (by norm_num) (by norm_num)

/-! ### Claim C5: retry loop semantics -/

/-- Loop-guard failure step: with no iterations left the code falls through
to `throw lastError` (with `lastError` still undefined when `attempt = 0`). -/
theorem withRetryGo_fuel_zero {E A : Type} (op : ℕ → Except E A) (config : RetryConfig)
    (p : Option (E → Bool)) (attempt : ℕ) :
    withRetryGo op config p attempt 0 = ⟨Except.error none, 0, []⟩ := rfl

/-- Successful-attempt step: the result is returned after one invocation. -/
theorem withRetryGo_step_ok {E A : Type} {op : ℕ → Except E A} {config : RetryConfig}
    {p : Option (E → Bool)} {attempt n : ℕ} {r : A} (hop : op attempt = Except.ok r) :
    withRetryGo op config p attempt (n + 1) = ⟨Except.ok r, 1, []⟩ := by
  simp [withRetryGo, hop]

/-- Non-retryable-failure step: the error is rethrown after one invocation. -/
theorem withRetryGo_step_nonretryable {E A : Type} {op : ℕ → Except E A} {config : RetryConfig}
    {p : Option (E → Bool)} {attempt n : ℕ} {e : E} (hop : op attempt = Except.error e)
    (hr : retryableBy p e = false) :
    withRetryGo op config p attempt (n + 1) = ⟨Except.error (some e), 1, []⟩ := by
  simp [withRetryGo, hop, hr]

/-- Last-attempt-failure step: without further attempts available the error
is rethrown after one invocation. -/
theorem withRetryGo_step_exhausted {E A : Type} {op : ℕ → Except E A} {config : RetryConfig}
    {p : Option (E → Bool)} {attempt n : ℕ} {e : E} (hop : op attempt = Except.error e)
    (hr : retryableBy p e = true) (hs : shouldRetry (attempt + 1) config = false) :
    withRetryGo op config p attempt (n + 1) = ⟨Except.error (some e), 1, []⟩ := by
  simp [withRetryGo, hop, hr, hs]

/-- Retry step: a retryable failure with attempts remaining waits
`getRetryDelay attempt config` and continues with the next attempt. -/
theorem withRetryGo_step_retry {E A : Type} {op : ℕ → Except E A} {config : RetryConfig}
    {p : Option (E → Bool)} {attempt n : ℕ} {e : E} (hop : op attempt = Except.error e)
    (hr : retryableBy p e = true) (hs : shouldRetry (attempt + 1) config = true) :
    withRetryGo op config p attempt (n + 1) =
      ⟨(withRetryGo op config p (attempt + 1) n).result,
       (withRetryGo op config p (attempt + 1) n).calls + 1,
       getRetryDelay attempt config :: (withRetryGo op config p (attempt + 1) n).delays⟩ := by
  simp [withRetryGo, hop, hr, hs]

/-- Each run of the loop invokes `operation` at most `fuel` more times. -/
theorem withRetryGo_calls_le {E A : Type} (op : ℕ → Except E A) (config : RetryConfig)
    (p : Option (E → Bool)) :
    ∀ fuel attempt, (withRetryGo op config p attempt fuel).calls ≤ fuel := by
  intro fuel
  induction fuel with
  | zero => intro attempt; simp [withRetryGo_fuel_zero]
  | succ n ih =>
    intro attempt
    cases hop : op attempt with
    | ok r => rw [withRetryGo_step_ok hop]; simp only [RetryTrace.calls_mk]; omega
    | error e =>
      cases hr : retryableBy p e with
      | false =>
        rw [withRetryGo_step_nonretryable hop hr]; simp only [RetryTrace.calls_mk]; omega
      | true =>
        cases hs : shouldRetry (attempt + 1) config with
        | false =>
          rw [withRetryGo_step_exhausted hop hr hs]; simp only [RetryTrace.calls_mk]; omega
        | true =>
          rw [withRetryGo_step_retry hop hr hs]
          simp only [RetryTrace.calls_mk]
          have := ih (attempt + 1)
          omega

/-- With at least one loop iteration allowed, `operation` is invoked at
least once. -/
theorem withRetryGo_one_le_calls {E A : Type} (op : ℕ → Except E A) (config : RetryConfig)
    (p : Option (E → Bool)) :
    ∀ fuel attempt, 1 ≤ fuel → 1 ≤ (withRetryGo op config p attempt fuel).calls := by
  intro fuel attempt hfuel
  match fuel, hfuel with
  | n + 1, _ =>
    cases hop : op attempt with
    | ok r => rw [withRetryGo_step_ok hop]
    | error e =>
      cases hr : retryableBy p e with
      | false => rw [withRetryGo_step_nonretryable hop hr]
      | true =>
        cases hs : shouldRetry (attempt + 1) config with
        | false => rw [withRetryGo_step_exhausted hop hr hs]
        | true =>
          rw [withRetryGo_step_retry hop hr hs]; simp only [RetryTrace.calls_mk]; omega

/-- The delays awaited are exactly `getRetryDelay i config` for the
consecutive attempt indices `i` that were followed by another invocation. -/
theorem withRetryGo_delays {E A : Type} (op : ℕ → Except E A) (config : RetryConfig)
    (p : Option (E → Bool)) :
    ∀ fuel attempt, config.maxAttempts ≤ attempt + fuel →
      (withRetryGo op config p attempt fuel).delays =
        (List.range' attempt ((withRetryGo op config p attempt fuel).calls - 1)).map
          (fun i => getRetryDelay i config) := by
  intro fuel
  induction fuel with
  | zero => intro attempt _; simp [withRetryGo_fuel_zero]
  | succ n ih =>
    intro attempt hinv
    cases hop : op attempt with
    | ok r => rw [withRetryGo_step_ok hop]; simp
    | error e =>
      cases hr : retryableBy p e with
      | false => rw [withRetryGo_step_nonretryable hop hr]; simp
      | true =>
        cases hs : shouldRetry (attempt + 1) config with
        | false => rw [withRetryGo_step_exhausted hop hr hs]; simp
        | true =>
          rw [withRetryGo_step_retry hop hr hs]
          have hlt : attempt + 1 < config.maxAttempts := by
            simpa [shouldRetry] using hs
          have hn : 1 ≤ n := by omega
          have hcalls := withRetryGo_one_le_calls op config p n (attempt + 1) hn
          obtain ⟨m, hm⟩ : ∃ m, (withRetryGo op config p (attempt + 1) n).calls = m + 1 :=
            ⟨(withRetryGo op config p (attempt + 1) n).calls - 1, by omega⟩
          have ihn := ih (attempt + 1) (by omega)
          rw [hm] at ihn
          simp only [hm, Nat.add_sub_cancel] at ihn ⊢
          rw [List.range'_succ, List.map_cons, ihn]

/-- A failure the supplied classifier marks non-retryable stops the loop
at once: the error is rethrown and no further invocation happens. -/
theorem withRetryGo_stops_nonretryable {E A : Type} (op : ℕ → Except E A) (config : RetryConfig)
    (p : Option (E → Bool)) :
    ∀ fuel attempt k e, config.maxAttempts ≤ attempt + fuel → attempt ≤ k →
      k < config.maxAttempts →
      (∀ i, attempt ≤ i → i < k → ∃ ei, op i = Except.error ei ∧ retryableBy p ei = true) →
      op k = Except.error e → retryableBy p e = false →
      (withRetryGo op config p attempt fuel).result = Except.error (some e)
      ∧ (withRetryGo op config p attempt fuel).calls = k - attempt + 1 := by
  intro fuel
  induction fuel with
  | zero => intro attempt k e hinv hak hk _ _ _; omega
  | succ n ih =>
    intro attempt k e hinv hak hk hall hope hre
    by_cases heq : attempt = k
    · subst heq
      rw [withRetryGo_step_nonretryable hope hre]
      refine ⟨rfl, ?_⟩
      simp only [RetryTrace.calls_mk]
      omega
    · obtain ⟨ea, hea, hra⟩ := hall attempt le_rfl (by omega)
      have hs : shouldRetry (attempt + 1) config = true := by
        simp [shouldRetry]; omega
      rw [withRetryGo_step_retry hea hra hs]
      have := ih (attempt + 1) k e (by omega) (by omega) hk
        (fun i h1 h2 => hall i (by omega) h2) hope hre
      refine ⟨this.1, ?_⟩
      simp only [RetryTrace.calls_mk, this.2]
      omega

/-- When every attempt up to `maxAttempts` fails with a retryable error,
the loop exhausts its attempts and rethrows the last error unchanged. -/
theorem withRetryGo_exhausts {E A : Type} (op : ℕ → Except E A) (config : RetryConfig)
    (p : Option (E → Bool)) :
    ∀ fuel attempt, config.maxAttempts ≤ attempt + fuel → attempt < config.maxAttempts →
      (∀ i, attempt ≤ i → i < config.maxAttempts →
        ∃ ei, op i = Except.error ei ∧ retryableBy p ei = true) →
      ∃ e, op (config.maxAttempts - 1) = Except.error e
        ∧ (withRetryGo op config p attempt fuel).result = Except.error (some e)
        ∧ (withRetryGo op config p attempt fuel).calls = config.maxAttempts - attempt := by
  intro fuel
  induction fuel with
  | zero => intro attempt hinv hlt _; omega
  | succ n ih =>
    intro attempt hinv hlt hall
    obtain ⟨ea, hea, hra⟩ := hall attempt le_rfl hlt
    by_cases hmore : attempt + 1 < config.maxAttempts
    · have hs : shouldRetry (attempt + 1) config = true := by
        simp [shouldRetry]; omega
      rw [withRetryGo_step_retry hea hra hs]
      obtain ⟨e, h1, h2, h3⟩ := ih (attempt + 1) (by omega) hmore
        (fun i hi1 hi2 => hall i (by omega) hi2)
      refine ⟨e, h1, h2, ?_⟩
      simp only [RetryTrace.calls_mk, h3]
      omega
    · have hs : shouldRetry (attempt + 1) config = false := by
        simp [shouldRetry]; omega
      have hlast : attempt = config.maxAttempts - 1 := by omega
      rw [withRetryGo_step_exhausted hea hra hs]
      refine ⟨ea, by rw [← hlast]; exact hea, rfl, ?_⟩
      simp only [RetryTrace.calls_mk]
      omega

/-- **C5.**  `withRetry` invokes the operation at most `maxAttempts` times;
the delay awaited between invocation `i` and invocation `i + 1` is
`getRetryDelay i config`; a failure classified non-retryable by the supplied
predicate is rethrown at once without consuming remaining attempts; and when
all attempts fail retryable, the error of the last attempt is propagated
unchanged after exactly `maxAttempts` invocations. -/
theorem withRetry_spec {E A : Type} (op : ℕ → Except E A) (config : RetryConfig)
    (p : Option (E → Bool)) :
    (withRetry op config p).calls ≤ config.maxAttempts
    ∧ (withRetry op config p).delays =
        (List.range ((withRetry op config p).calls - 1)).map (fun i => getRetryDelay i config)
    ∧ (∀ k e, k < config.maxAttempts →
        (∀ i, i < k → ∃ ei, op i = Except.error ei ∧ retryableBy p ei = true) →
        op k = Except.error e → retryableBy p e = false →
        (withRetry op config p).result = Except.error (some e)
        ∧ (withRetry op config p).calls = k + 1)
    ∧ (1 ≤ config.maxAttempts →
        (∀ i, i < config.maxAttempts → ∃ ei, op i = Except.error ei ∧ retryableBy p ei = true) →
        ∃ e, op (config.maxAttempts - 1) = Except.error e
          ∧ (withRetry op config p).result = Except.error (some e)
          ∧ (withRetry op config p).calls = config.maxAttempts) := by
  refine ⟨withRetryGo_calls_le op config p config.maxAttempts 0, ?_, ?_, ?_⟩
  · rw [List.range_eq_range']
    exact withRetryGo_delays op config p config.maxAttempts 0 (by omega)
  · intro k e hk hall hope hre
    have := withRetryGo_stops_nonretryable op config p config.maxAttempts 0 k e
      (by omega) (by omega) hk (fun i _ h2 => hall i h2) hope hre
    simpa using this
  · intro hpos hall
    have := withRetryGo_exhausts op config p config.maxAttempts 0 (by omega) hpos
      (fun i _ h2 => hall i h2)
    simpa using this

/-- **C5 witness**: with an operation failing at every attempt (attempt `i`
fails with error `i`), no classifier, and `maxAttempts = 3`, the run makes
exactly 3 invocations and propagates the error of attempt 2 unchanged. -/
theorem withRetry_spec_witness :
    (withRetry (fun i => (Except.error i : Except ℕ ℕ)) ⟨3, 1000, 30000, 2⟩ none).result
        = Except.error (some 2)
    ∧ (withRetry (fun i => (Except.error i : Except ℕ ℕ)) ⟨3, 1000, 30000, 2⟩ none).calls = 3 := by
  obtain ⟨e, he, hres, hcalls⟩ :=
    (withRetry_spec (fun i => (Except.error i : Except ℕ ℕ)) ⟨3, 1000, 30000, 2⟩ none).2.2.2
      (by norm_num) (fun i _ => ⟨i, rfl, rfl⟩)
  have he2 : e = 2 := by
    have : (Except.error (3 - 1) : Except ℕ ℕ) = Except.error e := he
    simpa using this.symm
  subst he2
  exact ⟨hres, hcalls⟩

/-! ## Error classifier (`src/utils/error-handler.ts`, `src/types/errors.ts`) -/

/-- The closed `ErrorCategory` taxonomy from `src/types/errors.ts`. -/
inductive ErrorCategory where
  | NETWORK
  | API
  | WEBSOCKET
  | VALIDATION
  | AUTHENTICATION
  | UNKNOWN
deriving DecidableEq

/-- `AppError` from `src/types/errors.ts` (the opaque `details` payload is
irrelevant to classification and omitted). -/
structure AppError where
  message : String
  code : String
  category : ErrorCategory
  statusCode : Option ℕ := none
  timestamp : String := ""
deriving DecidableEq

/-- JavaScript `String.prototype.includes`: `pat` occurs as a contiguous
substring of `s`. -/
def strIncludes (s pat : String) : Bool :=
  decide (pat.data <:+: s.data)

/-- `isRetryableError` from `src/utils/error-handler.ts`, with the source's
check order preserved.  The `statusCode` guards model the JS truthiness test
`error.statusCode && ...` via `Option.any` (a stored `0` is falsy in JS and
likewise fails both numeric comparisons here). -/
def isRetryableError (error : AppError) : Bool :=
  if error.category = ErrorCategory.NETWORK then true
  else if error.category = ErrorCategory.WEBSOCKET then true
  else if (error.statusCode.any fun s => decide (500 ≤ s)) = true then true
  else if strIncludes error.code "TIMEOUT" = true then true
  else if error.code = "RATE_LIMIT" then false
  else if (error.statusCode.any fun s => decide (400 ≤ s) && decide (s < 500)) = true then false
  else if error.category = ErrorCategory.AUTHENTICATION then false
  else if error.category = ErrorCategory.VALIDATION then false
  else false

/-! ### Claim C7: retryability classification -/

/-- **C7.**  `isRetryableError` returns true exactly when the category is
NETWORK or WEBSOCKET, the status code is at least 500, or the code contains
"TIMEOUT"; in every other case — including the rate-limit code, 4xx status
codes, and the AUTHENTICATION and VALIDATION categories — it returns false
(closed default). -/
theorem isRetryableError_spec (error : AppError) :
    isRetryableError error = true ↔
      (error.category = ErrorCategory.NETWORK
        ∨ error.category = ErrorCategory.WEBSOCKET
        ∨ (∃ s, error.statusCode = some s ∧ 500 ≤ s)
        ∨ strIncludes error.code "TIMEOUT" = true) := by
  cases hsc : error.statusCode with
  | none =>
    simp only [isRetryableError, hsc]
    split_ifs with h1 h2 h3 h4 h5 h6 h7 h8 <;> simp_all
  | some v =>
    simp only [isRetryableError, hsc]
    split_ifs with h1 h2 h3 h4 h5 h6 h7 h8 <;> simp_all

/-! ## Token store (`auth-service`, `src/unnamed/part_001`) -/

/-- The three `STORAGE_KEYS` of the token store. -/
inductive StorageKey where
  | ACCESS_TOKEN
  | REFRESH_TOKEN
  | EXPIRES_IN
deriving DecidableEq

/-- One browser key-value scope (`localStorage` or `sessionStorage`),
restricted to the three keys the token store ever touches. -/
structure Storage where
  accessToken : Option String := none
  refreshToken : Option String := none
  expiresIn : Option String := none
deriving DecidableEq

/-- `Storage.getItem` on the token-store keys. -/
def Storage.getItem (s : Storage) : StorageKey → Option String
  | StorageKey.ACCESS_TOKEN => s.accessToken
  | StorageKey.REFRESH_TOKEN => s.refreshToken
  | StorageKey.EXPIRES_IN => s.expiresIn

/-- `Storage.setItem` on the token-store keys. -/
def Storage.setItem (s : Storage) : StorageKey → String → Storage
  | StorageKey.ACCESS_TOKEN, v => { s with accessToken := some v }
  | StorageKey.REFRESH_TOKEN, v => { s with refreshToken := some v }
  | StorageKey.EXPIRES_IN, v => { s with expiresIn := some v }

/-- `Storage.removeItem` on the token-store keys. -/
def Storage.removeItem (s : Storage) : StorageKey → Storage
  | StorageKey.ACCESS_TOKEN => { s with accessToken := none }
  | StorageKey.REFRESH_TOKEN => { s with refreshToken := none }
  | StorageKey.EXPIRES_IN => { s with expiresIn := none }

/-- The two process-wide storage scopes of the browser. -/
structure BrowserState where
  localStorage : Storage := {}
  sessionStorage : Storage := {}
deriving DecidableEq

/-- `AuthTokens` from `src/types/auth`. -/
structure AuthTokens where
  accessToken : String
  refreshToken : String
  expiresIn : ℕ
deriving DecidableEq

/-- `getStorage` from the auth service: `localStorage` iff it holds the
access-token key, `sessionStorage` otherwise. -/
def getStorage (b : BrowserState) : Storage :=
  if (b.localStorage.getItem StorageKey.ACCESS_TOKEN).isSome then b.localStorage
  else b.sessionStorage

/-- `storeTokens` from the auth service: writes all three keys to the scope
selected by `rememberMe`. -/
def storeTokens (tokens : AuthTokens) (rememberMe : Bool) (b : BrowserState) : BrowserState :=
  let write : Storage → Storage := fun s =>
    ((s.setItem StorageKey.ACCESS_TOKEN tokens.accessToken).setItem StorageKey.REFRESH_TOKEN tokens.refreshToken).setItem StorageKey.EXPIRES_IN (toString tokens.expiresIn)
  if rememberMe then { b with localStorage := write b.localStorage }
  else { b with sessionStorage := write b.sessionStorage }

/-- `logout` from the auth service: removes all three keys from both scopes. -/
def logout (b : BrowserState) : BrowserState :=
  let wipe : Storage → Storage := fun s =>
    ((s.removeItem StorageKey.ACCESS_TOKEN).removeItem StorageKey.REFRESH_TOKEN).removeItem StorageKey.EXPIRES_IN
  { localStorage := wipe b.localStorage, sessionStorage := wipe b.sessionStorage }

/-- `getAccessToken` from the auth service. -/
def getAccessToken (b : BrowserState) : Option String :=
  (getStorage b).getItem StorageKey.ACCESS_TOKEN

/-- `getRefreshToken` from the auth service. -/
def getRefreshToken (b : BrowserState) : Option String :=
  (getStorage b).getItem StorageKey.REFRESH_TOKEN

/-- JavaScript `token.split('.')`: split on every dot, keeping empty
segments (on the empty string it yields `[""]`, as in JS). -/
def jsSplitDot (s : String) : List String :=
  (List.splitOn '.' s.data).map (fun l => String.mk l)

/-- The decoded JWT claims relevant to expiry (`JWTPayload`): `exp` and
`iat` are optional epoch-second claims. -/
structure JWTPayload where
  exp : Option ℕ := none
  iat : Option ℕ := none
deriving DecidableEq

/-- `decodeToken` from the auth service: require exactly three dot-delimited
segments and decode the middle one.  `decodeSegment` models the host
pipeline `JSON.parse(base64UrlDecode(seg))` (`atob`, `decodeURIComponent`
and `JSON.parse` are browser built-ins, not repository code); it returns
`none` whenever that pipeline throws, which the surrounding `try/catch`
turns into `null`. -/
def decodeToken (decodeSegment : String → Option JWTPayload) (token : String) :
    Option JWTPayload :=
  match jsSplitDot token with
  | [_, payload, _] => decodeSegment payload
  | _ => none

/-- `isTokenExpired` from the auth service, at current epoch time `now`:
true when decoding fails, when the `exp` claim is absent (or `0`, which is
falsy in JS), or when `exp <= now + 30`. -/
def isTokenExpired (decodeSegment : String → Option JWTPayload) (now : ℕ)
    (token : String) : Bool :=
  match decodeToken decodeSegment token with
  | none => true
  | some payload =>
    match payload.exp with
    | none => true
    | some e => if e = 0 then true else decide (e ≤ now + 30)

/-! ### Claim C6: token expiry check -/

/-- A token that does not split into exactly three dot-delimited segments
never decodes. -/
theorem decodeToken_eq_none_of_ne_three (ds : String → Option JWTPayload) (token : String)
    (h : (jsSplitDot token).length ≠ 3) : decodeToken ds token = none := by
  rcases hsp : jsSplitDot token with _ | ⟨a, _ | ⟨b, _ | ⟨c, _ | ⟨d, tl⟩⟩⟩⟩ <;>
    simp_all [decodeToken]

/-- **C6.**  `isTokenExpired` returns true when the token does not have
three dot-delimited segments, when the payload segment fails to decode,
or when the decoded payload lacks the `exp` claim; and it returns false
exactly when the token decodes to a payload whose `exp` claim is strictly
beyond `now + 30` seconds. -/
theorem isTokenExpired_spec (ds : String → Option JWTPayload) (now : ℕ) (token : String) :
    ((jsSplitDot token).length ≠ 3 → isTokenExpired ds now token = true)
    ∧ (decodeToken ds token = none → isTokenExpired ds now token = true)
    ∧ (∀ payload, decodeToken ds token = some payload → payload.exp = none →
        isTokenExpired ds now token = true)
    ∧ (isTokenExpired ds now token = false ↔
        ∃ payload e, decodeToken ds token = some payload ∧ payload.exp = some e ∧
          now + 30 < e) := by
  refine ⟨?_, ?_, ?_, ?_⟩
  · intro h
    simp [isTokenExpired, decodeToken_eq_none_of_ne_three ds token h]
  · intro h
    simp [isTokenExpired, h]
  · intro payload hp hexp
    simp [isTokenExpired, hp, hexp]
  · cases hdec : decodeToken ds token with
    | none => simp [isTokenExpired, hdec]
    | some payload =>
      cases hexp : payload.exp with
      | none => simp [isTokenExpired, hdec, hexp]
      | some e =>
        by_cases he0 : e = 0
        · subst he0
          simp [isTokenExpired, hdec, hexp]
        · simp only [isTokenExpired, hdec, hexp, if_neg he0]
          constructor
          · intro hle
            exact ⟨payload, e, rfl, hexp, by simpa using hle⟩
          · rintro ⟨p, e2, hp, hpe, hlt⟩
            cases hp
            rw [hexp] at hpe
            cases hpe
            simpa using hlt

/-- **C6 witness**: a two-segment token is reported expired regardless of
the decoder. -/
theorem isTokenExpired_spec_witness :
    (jsSplitDot "just.two").length ≠ 3
    ∧ isTokenExpired (fun _ => none) 1000 "just.two" = true :=
  ⟨by decide, (isTokenExpired_spec (fun _ => none) 1000 "just.two").1 (by decide)⟩

/-! ### Claim C9: refresh-token read is coupled to the access-token key -/

/-- **C9.**  The scope both token reads use is chosen solely by whether
`localStorage` holds the access-token key; consequently, in a state where
`localStorage` holds an access token but no refresh token while
`sessionStorage` holds both (the session pair having been stored by
`storeTokens` with `rememberMe = false`), `getRefreshToken` returns `null`:
there is no per-key fallback from the durable scope to the session scope. -/
theorem getRefreshToken_coupled_spec :
    (∀ b : BrowserState,
      getRefreshToken b =
        (if (b.localStorage.getItem StorageKey.ACCESS_TOKEN).isSome
         then b.localStorage else b.sessionStorage).getItem StorageKey.REFRESH_TOKEN)
    ∧ (getRefreshToken
        { localStorage := { accessToken := some "local-access" },
          sessionStorage :=
            (storeTokens ⟨"sess-access", "sess-refresh", 3600⟩ false {}).sessionStorage }
          = none
      ∧ (storeTokens ⟨"sess-access", "sess-refresh", 3600⟩ false
          {}).sessionStorage.getItem StorageKey.REFRESH_TOKEN = some "sess-refresh"
      ∧ (Storage.getItem { accessToken := some "local-access" }
          StorageKey.REFRESH_TOKEN) = none) := by
  refine ⟨fun b => rfl, rfl, rfl, rfl⟩

/-! ## HTTP pipeline 401 refresh protocol (`src/services/api-client.ts`)

The response interceptor's 401 branch is a state machine over the two
module-level variables `isRefreshing` and `requestQueue`.  Because execution
is single-threaded and cooperative, its observable behaviour is a sequence
of atomic transitions: a request failing with 401 (and `_retry` unset), and
the awaited `refreshAccessToken()` promise settling.  The machine records
the externally visible effects: how each request was settled, how many
refresh calls were issued, the browser storage, and the navigation target
(`window.location.href`). -/

/-- The slice of an axios request config the refresh protocol manipulates:
the `Authorization` header and the `_retry` marker. -/
structure RequestConfig where
  url : String
  authorization : Option String := none
  _retry : Bool := false
deriving DecidableEq

/-- How a request's promise was settled: re-issued with the given config
(`request.resolve(axiosInstance(request.config))` / `instance(originalRequest)`)
or rejected with an error. -/
inductive Resolution (E : Type) where
  | retried (config : RequestConfig)
  | rejected (error : E)
deriving DecidableEq

/-- The interceptor's process-wide state plus its observable effect log. -/
structure ApiState (E : Type) where
  isRefreshing : Bool := false
  requestQueue : List (ℕ × RequestConfig) := []
  activeRequest : Option (ℕ × RequestConfig) := none
  refreshCalls : ℕ := 0
  browser : BrowserState := {}
  navigation : Option String := none
  logoutCalls : ℕ := 0
  resolutions : List (ℕ × Resolution E) := []
deriving DecidableEq

/-- `processQueue` from `api-client.ts`: settle every queued request — with
an error each is rejected; otherwise the token (when present) is attached to
its `Authorization` header and the request is re-issued.  The queue is then
emptied by the caller. -/
def processQueue {E : Type} (error : Option E) (token : Option String)
    (queue : List (ℕ × RequestConfig)) : List (ℕ × Resolution E) :=
  queue.map fun q =>
    match error with
    | some e => (q.1, Resolution.rejected e)
    | none =>
      match token with
      | some t => (q.1, Resolution.retried { q.2 with authorization := some ("Bearer " ++ t) })
      | none => (q.1, Resolution.retried q.2)

/-- The events driving the 401 branch: a not-yet-retried request failing
with status 401, and the in-flight `refreshAccessToken()` promise settling. -/
inductive ApiEvent (E : Type) where
  | fail401 (id : ℕ) (config : RequestConfig)
  | refreshSettled (outcome : Except E String)

/-- One transition of the 401 response-interceptor state machine, straight
from the interceptor's error handler: while `isRefreshing`, a 401 enqueues
the request and leaves its promise pending; otherwise `_retry` is marked,
the flag is raised and `refreshAccessToken()` is called.  On refresh success
the queue is drained via `processQueue` with the new token and the
triggering request is re-issued; on refresh failure the queue and the
triggering request are rejected with the refresh error, `logout()` runs,
`window.location.href` is set to `/login`; either way the `finally` block
clears `isRefreshing`. -/
def apiStep {E : Type} (s : ApiState E) : ApiEvent E → ApiState E
  | ApiEvent.fail401 id config =>
    if s.isRefreshing then
      { s with requestQueue := s.requestQueue ++ [(id, config)] }
    else
      { s with isRefreshing := true,
               activeRequest := some (id, { config with _retry := true }),
               refreshCalls := s.refreshCalls + 1 }
  | ApiEvent.refreshSettled (Except.ok newAccessToken) =>
    let queued := processQueue none (some newAccessToken) s.requestQueue
    let active :=
      match s.activeRequest with
      | some a =>
        [(a.1, Resolution.retried { a.2 with authorization := some ("Bearer " ++ newAccessToken) })]
      | none => []
    { s with resolutions := s.resolutions ++ queued ++ active,
             requestQueue := [], activeRequest := none, isRefreshing := false }
  | ApiEvent.refreshSettled (Except.error refreshError) =>
    let queued := processQueue (some refreshError) none s.requestQueue
    let active :=
      match s.activeRequest with
      | some a => [(a.1, Resolution.rejected refreshError)]
      | none => []
    { s with resolutions := s.resolutions ++ queued ++ active,
             requestQueue := [], activeRequest := none, isRefreshing := false,
             browser := logout s.browser,
             logoutCalls := s.logoutCalls + 1,
             navigation := some "/login" }

/-! ### Claim C1: single-flight refresh -/

/-- **C1.**  While a refresh is in flight, a request failing with 401 that
has not been retried is only enqueued — the state is otherwise unchanged, so
no second refresh call is issued and no promise settles; and in the
two-concurrent-401 scenario (both failing before the refresh settles, which
then succeeds with token `t`), exactly one `refreshAccessToken` call occurs
and each of the two requests is resolved exactly once, with
`Bearer t` attached to its `Authorization` header. -/
theorem singleFlight_refresh_spec {E : Type} (c1 c2 : RequestConfig) (t : String) :
    (∀ (s : ApiState E) (id : ℕ) (config : RequestConfig), s.isRefreshing = true →
      apiStep s (ApiEvent.fail401 id config) =
        { s with requestQueue := s.requestQueue ++ [(id, config)] })
    ∧ (apiStep (apiStep (apiStep ({} : ApiState E) (ApiEvent.fail401 1 c1))
          (ApiEvent.fail401 2 c2)) (ApiEvent.refreshSettled (Except.ok t))).refreshCalls = 1
    ∧ (apiStep (apiStep (apiStep ({} : ApiState E) (ApiEvent.fail401 1 c1))
          (ApiEvent.fail401 2 c2)) (ApiEvent.refreshSettled (Except.ok t))).resolutions =
        [(2, Resolution.retried { c2 with authorization := some ("Bearer " ++ t) }),
         (1, Resolution.retried
              { c1 with _retry := true, authorization := some ("Bearer " ++ t) })]
    ∧ (apiStep (apiStep (apiStep ({} : ApiState E) (ApiEvent.fail401 1 c1))
          (ApiEvent.fail401 2 c2)) (ApiEvent.refreshSettled (Except.ok t))).isRefreshing
        = false := by
  refine ⟨fun s id config h => ?_, ?_, ?_, ?_⟩ <;>
    simp [apiStep, processQueue, *]

/-- **C1 witness**: a 401 arriving while the flag is raised is enqueued
behind the existing queue, with no other state change. -/
theorem singleFlight_refresh_spec_witness :
    apiStep ({ isRefreshing := true, requestQueue := [(3, { url := "/c" })] } : ApiState ℕ)
        (ApiEvent.fail401 7 { url := "/d" }) =
      { isRefreshing := true, requestQueue := [(3, { url := "/c" }), (7, { url := "/d" })] } := by
  have h := (singleFlight_refresh_spec (E := ℕ) { url := "/x" } { url := "/y" } "t").1
    { isRefreshing := true, requestQueue := [(3, { url := "/c" })] } 7 { url := "/d" } rfl
  simpa using h

/-! ### Claim C8: failed-refresh teardown -/

/-- **C8.**  When the in-flight refresh settles with an error, every queued
request and the triggering request are rejected with that error, `logout` is
invoked exactly once and clears every token key from both storage scopes,
the navigation target is set to `/login`, and the single-flight flag is
cleared even though the refresh threw. -/
theorem failedRefresh_teardown_spec {E : Type} (s : ApiState E) (e : E)
    (a : ℕ × RequestConfig) (hflight : s.isRefreshing = true)
    (hactive : s.activeRequest = some a) :
    (apiStep s (ApiEvent.refreshSettled (Except.error e))).resolutions =
        s.resolutions ++ s.requestQueue.map (fun q => (q.1, Resolution.rejected e))
          ++ [(a.1, Resolution.rejected e)]
    ∧ (apiStep s (ApiEvent.refreshSettled (Except.error e))).logoutCalls = s.logoutCalls + 1
    ∧ (apiStep s (ApiEvent.refreshSettled (Except.error e))).browser = logout s.browser
    ∧ (∀ k, (apiStep s (ApiEvent.refreshSettled (Except.error e))).browser.localStorage.getItem k
          = none
        ∧ (apiStep s (ApiEvent.refreshSettled (Except.error e))).browser.sessionStorage.getItem k
          = none)
    ∧ (apiStep s (ApiEvent.refreshSettled (Except.error e))).navigation = some "/login"
    ∧ (apiStep s (ApiEvent.refreshSettled (Except.error e))).isRefreshing = false := by
  refine ⟨?_, rfl, rfl, fun k => ?_, rfl, rfl⟩
  · simp [apiStep, processQueue, hactive]
  · cases k <;>
      simp [apiStep, logout, Storage.removeItem, Storage.getItem]

/-- **C8 witness**: the failure teardown at a concrete state with one queued
request and one triggering request. -/
theorem failedRefresh_teardown_spec_witness :
    (apiStep ({ isRefreshing := true,
                requestQueue := [(2, { url := "/b" })],
                activeRequest := some (1, { url := "/a", _retry := true }),
                browser := { localStorage := { accessToken := some "tok" } } } : ApiState ℕ)
        (ApiEvent.refreshSettled (Except.error 42))).resolutions =
      [(2, Resolution.rejected 42), (1, Resolution.rejected 42)] := by
  have h := (failedRefresh_teardown_spec
    ({ isRefreshing := true,
       requestQueue := [(2, { url := "/b" })],
       activeRequest := some (1, { url := "/a", _retry := true }),
       browser := { localStorage := { accessToken := some "tok" } } } : ApiState ℕ)
    42 (1, { url := "/a", _retry := true }) rfl rfl).1
  simpa using h

/-! ## WebSocket connection manager (`src/lib/websocket-manager.ts`)

Inbound frames are parsed JSON values, abstracted as an arbitrary type
`Msg` (`none` models a frame `JSON.parse` rejects).  Data and status
callbacks are identified by numbers; a JS `Set` of callbacks iterates in
insertion order, so a subscriber set is a duplicate-free list.  The
manager's deferred work (`setTimeout` replays, incoming message events) is
processed through the browser's FIFO task queue, per the spec's
single-threaded cooperative execution model. -/

/-- `WebSocket.readyState`. -/
inductive ReadyState where
  | CONNECTING
  | OPEN
  | CLOSING
  | CLOSED
deriving DecidableEq

/-- `WebSocketInstance` from `websocket-manager.ts` (the `ws` handle is
represented by its `readyState`). -/
structure WebSocketInstance (Msg : Type) where
  readyState : ReadyState := ReadyState.CONNECTING
  url : String := ""
  subscribers : List ℕ := []
  statusSubscribers : List ℕ := []
  isConnected : Bool := false
  isConnecting : Bool := true
  error : Option String := none
  lastMessages : List Msg := []
  maxMessages : ℕ := 100

/-- The manager's `connections : Map<string, WebSocketInstance>`. -/
abbrev Registry (Msg : Type) := String → Option (WebSocketInstance Msg)

/-- The empty registry. -/
def Registry.empty {Msg : Type} : Registry Msg := fun _ => none

/-- `Map.set`. -/
def Registry.set {Msg : Type} (reg : Registry Msg) (url : String)
    (inst : WebSocketInstance Msg) : Registry Msg :=
  fun u => if u = url then some inst else reg u

/-- `Map.delete`. -/
def Registry.delete {Msg : Type} (reg : Registry Msg) (url : String) : Registry Msg :=
  fun u => if u = url then none else reg u

/-- `WebSocketManager.connect`: return the registered instance while its
socket is OPEN or CONNECTING; otherwise drop any stale entry and create,
register and return a brand-new instance (fresh `WebSocket(url)`, empty
subscriber sets, empty history). -/
def connect {Msg : Type} (reg : Registry Msg) (url : String) :
    WebSocketInstance Msg × Registry Msg :=
  let fresh : WebSocketInstance Msg :=
    { readyState := ReadyState.CONNECTING, url := url, subscribers := [],
      statusSubscribers := [], isConnected := false, isConnecting := true,
      error := none, lastMessages := [], maxMessages := 100 }
  match reg url with
  | some inst =>
    if inst.readyState = ReadyState.OPEN then (inst, reg)
    else if inst.readyState = ReadyState.CONNECTING then (inst, reg)
    else (fresh, ((reg.delete url).set url fresh))
  | none => (fresh, reg.set url fresh)

/-- The history update in `ws.onmessage`: push the parsed message, then
`shift()` the oldest entry when the length exceeds `maxMessages`. -/
def pushBounded {Msg : Type} (maxMessages : ℕ) (buf : List Msg) (m : Msg) : List Msg :=
  let pushed := buf ++ [m]
  if maxMessages < pushed.length then pushed.tail else pushed

/-- `ws.onmessage`: an unparseable frame (`parsed = none`) is dropped with a
logged warning; otherwise the message is appended to the bounded history and
fanned out synchronously to every subscriber in registration order.
Returns the updated instance and the delivery log (subscriber, message). -/
def onMessage {Msg : Type} (inst : WebSocketInstance Msg) (parsed : Option Msg) :
    WebSocketInstance Msg × List (ℕ × Msg) :=
  match parsed with
  | none => (inst, [])
  | some m =>
    ({ inst with lastMessages := pushBounded inst.maxMessages inst.lastMessages m },
     inst.subscribers.map fun c => (c, m))

/-- JS `Set.add`: append the callback unless it is already registered. -/
def addSubscriber (subs : List ℕ) (cb : ℕ) : List ℕ :=
  if cb ∈ subs then subs else subs ++ [cb]

/-- Deferred work items in the browser's FIFO task queue: a scheduled
replay for one subscriber (`setTimeout(..., 0)`), and the arrival of an
inbound frame on a connection. -/
inductive WSTask (Msg : Type) where
  | replay (url : String) (sub : ℕ)
  | message (url : String) (parsed : Option Msg)

/-- `WebSocketManager.subscribe`: connect, register the callback, and —
when `replayLast` is set and the history is non-empty — schedule an
asynchronous replay task; nothing is delivered synchronously.  Returns the
updated registry and the scheduled tasks. -/
def subscribe {Msg : Type} (reg : Registry Msg) (url : String) (cb : ℕ)
    (replayLast : Bool) : Registry Msg × List (WSTask Msg) :=
  let (inst, reg2) := connect reg url
  let inst2 := { inst with subscribers := addSubscriber inst.subscribers cb }
  let reg3 := reg2.set url inst2
  (reg3, if replayLast = true ∧ 0 < inst2.lastMessages.length then [WSTask.replay url cb] else [])

/-- Process one queued task: a replay delivers the instance's *current*
history (the `setTimeout` closure reads `instance.lastMessages` when it
fires) to its one subscriber; a message arrival runs the `onmessage`
handler of the connection registered for that URL. -/
def runTask {Msg : Type} (reg : Registry Msg) : WSTask Msg → Registry Msg × List (ℕ × Msg)
  | WSTask.replay url sub =>
    match reg url with
    | some inst => (reg, inst.lastMessages.map fun m => (sub, m))
    | none => (reg, [])
  | WSTask.message url parsed =>
    match reg url with
    | some inst =>
      let (inst2, log) := onMessage inst parsed
      (reg.set url inst2, log)
    | none => (reg, [])

/-- Drain the FIFO task queue in order, accumulating the delivery log. -/
def runTasks {Msg : Type} (reg : Registry Msg) : List (WSTask Msg) → Registry Msg × List (ℕ × Msg)
  | [] => (reg, [])
  | t :: ts =>
    let (reg2, log) := runTask reg t
    let (reg3, log2) := runTasks reg2 ts
    (reg3, log ++ log2)

/-- The messages delivered to subscriber `sub`, in delivery order. -/
def deliveredTo {Msg : Type} (sub : ℕ) (log : List (ℕ × Msg)) : List Msg :=
  (log.filter fun p => p.1 == sub).map fun p => p.2

/-- `ws.onclose`: the entry is removed from the registry, and iff the close
was unclean (`!event.wasClean`) a reconnect — `connect(url)` after the fixed
2-second delay — is scheduled.  Returns the registry and whether the
reconnect was scheduled. -/
def handleClose {Msg : Type} (reg : Registry Msg) (url : String) (wasClean : Bool) :
    Registry Msg × Bool :=
  (reg.delete url, !wasClean)

/-- Run a sequence of inbound frames through the `onmessage` handler,
keeping the final instance. -/
def runMessages {Msg : Type} (inst : WebSocketInstance Msg) (frames : List (Option Msg)) :
    WebSocketInstance Msg :=
  frames.foldl (fun i f => (onMessage i f).1) inst

/-! ### Claim C3: bounded history -/

/-- Below capacity the push is a plain append. -/
theorem pushBounded_of_lt {Msg : Type} (buf : List Msg) (m : Msg) (h : buf.length < 100) :
    pushBounded 100 buf m = buf ++ [m] := by
  simp only [pushBounded]
  rw [if_neg]
  simp only [List.length_append, List.length_cons, List.length_nil]
  omega

/-- At capacity each arrival evicts the oldest entry (FIFO). -/
theorem pushBounded_at_capacity {Msg : Type} (buf : List Msg) (m : Msg)
    (h : buf.length = 100) :
    pushBounded 100 buf m = buf.tail ++ [m] := by
  have hne : buf ≠ [] := by
    intro hnil
    rw [hnil] at h
    simp at h
  simp only [pushBounded]
  rw [if_pos, List.tail_append_of_ne_nil hne]
  simp only [List.length_append, List.length_cons, List.length_nil]
  omega

/-- Folding arrivals over a buffer within capacity keeps exactly the last
100 elements of the concatenation (the sliding-window closed form). -/
theorem foldl_pushBounded {Msg : Type} (msgs : List Msg) :
    ∀ buf : List Msg, buf.length ≤ 100 →
      List.foldl (pushBounded 100) buf msgs =
        (buf ++ msgs).drop ((buf ++ msgs).length - 100) := by
  induction msgs with
  | nil =>
    intro buf h
    have hz : buf.length - 100 = 0 := by omega
    simp [hz]
  | cons m ms ih =>
    intro buf h
    by_cases hlt : buf.length < 100
    · rw [List.foldl_cons, pushBounded_of_lt buf m hlt,
        ih (buf ++ [m])
          (by simp only [List.length_append, List.length_cons, List.length_nil]; omega)]
      rw [List.append_assoc, List.singleton_append]
    · have heq : buf.length = 100 := by omega
      have hne : buf ≠ [] := by
        intro hnil
        rw [hnil] at heq
        simp at heq
      rw [List.foldl_cons, pushBounded_at_capacity buf m heq,
        ih (buf.tail ++ [m])
          (by simp only [List.length_append, List.length_tail, List.length_cons,
                List.length_nil]; omega)]
      rw [List.append_assoc, List.singleton_append, ← List.tail_append_of_ne_nil hne,
        List.drop_tail]
      congr 1
      simp only [List.length_tail, List.length_append, List.length_cons]
      omega

/-- `runMessages` only ever touches `lastMessages`, through `pushBounded`
at the instance's 100-entry bound. -/
theorem runMessages_lastMessages {Msg : Type} (msgs : List Msg) :
    ∀ inst : WebSocketInstance Msg, inst.maxMessages = 100 →
      (runMessages inst (msgs.map some)).lastMessages =
        List.foldl (pushBounded 100) inst.lastMessages msgs := by
  induction msgs with
  | nil => intro inst _; rfl
  | cons m ms ih =>
    intro inst h
    have hstep : runMessages inst ((m :: ms).map some)
        = runMessages (onMessage inst (some m)).1 (ms.map some) := rfl
    rw [hstep, ih ((onMessage inst (some m)).1) (by simpa [onMessage] using h)]
    simp [onMessage, h, List.foldl_cons]

/-- **C3.**  Starting from a freshly created connection, after any sequence
of parseable inbound messages the history buffer holds exactly the last
`min(n, 100)` messages in arrival order: its length never exceeds 100,
stays at 100 once more than 100 messages have arrived, and each arrival at
capacity evicts the oldest entry (FIFO). -/
theorem boundedHistory_spec {Msg : Type} (url : String) (msgs : List Msg) :
    (runMessages (connect Registry.empty url).1 (msgs.map some)).lastMessages =
        msgs.drop (msgs.length - 100)
    ∧ (runMessages (connect Registry.empty url).1 (msgs.map some)).lastMessages.length =
        min msgs.length 100
    ∧ (∀ (buf : List Msg) (m : Msg), buf.length = 100 →
        pushBounded 100 buf m = buf.tail ++ [m]) := by
  have hmain := runMessages_lastMessages msgs
    (connect (Registry.empty : Registry Msg) url).1 rfl
  have hnil : (connect (Registry.empty : Registry Msg) url).1.lastMessages = [] := rfl
  rw [hnil] at hmain
  have hfold := foldl_pushBounded msgs ([] : List Msg) (by simp)
  simp only [List.nil_append] at hfold
  refine ⟨?_, ?_, fun buf m h => pushBounded_at_capacity buf m h⟩
  · rw [hmain, hfold]
  · rw [hmain, hfold, List.length_drop]
    omega

/-- **C3 witness**: the FIFO eviction step at a concrete full buffer. -/
theorem boundedHistory_spec_witness :
    pushBounded 100 (List.replicate 100 (0 : ℕ)) 7 =
      (List.replicate 100 (0 : ℕ)).tail ++ [7] :=
  (boundedHistory_spec "wss://alarms" ([] : List ℕ)).2.2 (List.replicate 100 0) 7 (by simp)

/-! ### Claim C2: replay correctness -/

theorem deliveredTo_append {Msg : Type} (x : ℕ) (a b : List (ℕ × Msg)) :
    deliveredTo x (a ++ b) = deliveredTo x a ++ deliveredTo x b := by
  simp [deliveredTo, List.filter_append]

/-- A replay aimed at `x` delivers the whole list to `x`. -/
theorem deliveredTo_self {Msg : Type} (x : ℕ) (l : List Msg) :
    deliveredTo x (l.map fun m => (x, m)) = l := by
  induction l with
  | nil => rfl
  | cons m ms ih => simpa [deliveredTo, List.filter_cons] using ih

/-- A replay aimed at `y ≠ x` delivers nothing to `x`. -/
theorem deliveredTo_other {Msg : Type} (x y : ℕ) (l : List Msg) (h : y ≠ x) :
    deliveredTo x (l.map fun m => (y, m)) = [] := by
  induction l with
  | nil => rfl
  | cons m ms ih => simpa [deliveredTo, List.filter_cons, h] using ih

/-- A synchronous fan-out of `m` delivers nothing to a non-subscriber. -/
theorem deliveredTo_fanout_not_mem {Msg : Type} (subs : List ℕ) (m : Msg) (x : ℕ)
    (h : x ∉ subs) :
    deliveredTo x (subs.map fun c => (c, m)) = [] := by
  induction subs with
  | nil => rfl
  | cons c cs ih =>
    have hcx : c ≠ x := fun hc => h (hc ▸ List.mem_cons_self c cs)
    have hcs : x ∉ cs := fun hc => h (List.mem_cons_of_mem c hc)
    simpa [deliveredTo, List.filter_cons, hcx] using ih hcs

/-- A synchronous fan-out of `m` delivers `m` exactly once to each
registered subscriber. -/
theorem deliveredTo_fanout_mem {Msg : Type} (subs : List ℕ) (m : Msg) (x : ℕ)
    (hmem : x ∈ subs) (hnd : subs.Nodup) :
    deliveredTo x (subs.map fun c => (c, m)) = [m] := by
  induction subs with
  | nil => simp at hmem
  | cons c cs ih =>
    rcases List.mem_cons.mp hmem with h | h
    · subst h
      have hnotin : x ∉ cs := (List.nodup_cons.mp hnd).1
      have hrest := deliveredTo_fanout_not_mem cs m x hnotin
      simp only [List.map_cons, deliveredTo, List.filter_cons]
      simpa [deliveredTo] using hrest
    · have hcx : c ≠ x := by
        intro hc
        subst hc
        exact (List.nodup_cons.mp hnd).1 h
      simpa [deliveredTo, List.filter_cons, hcx] using ih h (List.nodup_cons.mp hnd).2

/-- A replay task at the head of the queue delivers the current history to
its subscriber and leaves the registry unchanged. -/
theorem runTasks_replay_prefix {Msg : Type} (reg : Registry Msg) (url : String)
    (inst : WebSocketInstance Msg) (x : ℕ) (hreg : reg url = some inst)
    (ts : List (WSTask Msg)) :
    runTasks reg (WSTask.replay url x :: ts)
      = ((runTasks reg ts).1,
         (inst.lastMessages.map fun m => (x, m)) ++ (runTasks reg ts).2) := by
  simp [runTasks, runTask, hreg]

/-- Live arrivals are delivered, in order, exactly to the subscribers
registered on the connection: each registered subscriber receives exactly
the arriving messages, everyone else receives nothing. -/
theorem runTasks_messages_deliveredTo {Msg : Type} (lives : List Msg) :
    ∀ (reg : Registry Msg) (url : String) (inst : WebSocketInstance Msg) (x : ℕ),
      reg url = some inst →
      ((x ∈ inst.subscribers → inst.subscribers.Nodup →
        deliveredTo x (runTasks reg (lives.map fun m => WSTask.message url (some m))).2 = lives)
      ∧ (x ∉ inst.subscribers →
        deliveredTo x (runTasks reg (lives.map fun m => WSTask.message url (some m))).2 = [])) := by
  induction lives with
  | nil => intro reg url inst x hreg; exact ⟨fun _ _ => rfl, fun _ => rfl⟩
  | cons m ms ih =>
    intro reg url inst x hreg
    have hrt : runTask reg (WSTask.message url (some m))
        = (reg.set url
            { inst with lastMessages := pushBounded inst.maxMessages inst.lastMessages m },
           inst.subscribers.map fun c => (c, m)) := by
      simp [runTask, hreg, onMessage]
    have hreg2 : (reg.set url
        { inst with lastMessages := pushBounded inst.maxMessages inst.lastMessages m }) url
          = some { inst with lastMessages := pushBounded inst.maxMessages inst.lastMessages m } := by
      simp [Registry.set]
    have ihx := ih (reg.set url
        { inst with lastMessages := pushBounded inst.maxMessages inst.lastMessages m }) url
        { inst with lastMessages := pushBounded inst.maxMessages inst.lastMessages m } x hreg2
    constructor
    · intro hmem hnd
      simp only [List.map_cons, runTasks, hrt, deliveredTo_append]
      rw [deliveredTo_fanout_mem inst.subscribers m x hmem hnd, ihx.1 hmem hnd]
      rfl
    · intro hmem
      simp only [List.map_cons, runTasks, hrt, deliveredTo_append]
      rw [deliveredTo_fanout_not_mem inst.subscribers m x hmem, ihx.2 hmem]
      rfl

/-- Subscribing against a registered OPEN connection registers the new
callback behind the existing ones and schedules a replay task iff
`replayLast` is set and the history is non-empty. -/
theorem subscribe_open {Msg : Type} (reg : Registry Msg) (url : String)
    (inst : WebSocketInstance Msg) (cb : ℕ) (rl : Bool) (hreg : reg url = some inst)
    (hopen : inst.readyState = ReadyState.OPEN) (hcb : cb ∉ inst.subscribers) :
    subscribe reg url cb rl =
      (reg.set url { inst with subscribers := inst.subscribers ++ [cb] },
       if rl = true ∧ 0 < inst.lastMessages.length then [WSTask.replay url cb] else []) := by
  simp [subscribe, connect, hreg, hopen, addSubscriber, hcb]

/-- An OPEN connection for `url` with registered subscribers `subs` and
buffered history `hist` — the starting point of the C2 scenario. -/
def scenarioInstance {Msg : Type} (url : String) (hist : List Msg) (subs : List ℕ) :
    WebSocketInstance Msg :=
  { readyState := ReadyState.OPEN, url := url, subscribers := subs,
    statusSubscribers := [], isConnected := true, isConnecting := false,
    error := none, lastMessages := hist, maxMessages := 100 }

/-- The C2 scenario: on a live connection with subscribers `subs` and
history `hist`, subscriber `s` joins with the given `replayLast` flag,
after which the frames `lives` arrive in order, their arrival tasks queued
behind any replay task the subscription scheduled.  Yields the complete
delivery log. -/
def replayScenario {Msg : Type} (url : String) (hist lives : List Msg) (subs : List ℕ)
    (s : ℕ) (replayLast : Bool) : List (ℕ × Msg) :=
  let reg : Registry Msg := Registry.set Registry.empty url (scenarioInstance url hist subs)
  let sres := subscribe reg url s replayLast
  (runTasks sres.1 (sres.2 ++ lives.map fun m => WSTask.message url (some m))).2

/-- What each party observes after a subscription followed by live traffic:
the new subscriber gets the full buffered history first iff it asked for
replay, and then every live message; everyone registered gets exactly the
live messages. -/
theorem runTasks_after_subscribe {Msg : Type} (reg : Registry Msg) (url : String)
    (inst : WebSocketInstance Msg) (s x : ℕ) (rl : Bool) (lives : List Msg)
    (hreg : reg url = some inst) (hopen : inst.readyState = ReadyState.OPEN)
    (hs : s ∉ inst.subscribers) (hmem : x ∈ inst.subscribers ++ [s])
    (hnd2 : (inst.subscribers ++ [s]).Nodup) :
    deliveredTo x (runTasks (subscribe reg url s rl).1
        ((subscribe reg url s rl).2 ++ lives.map fun m => WSTask.message url (some m))).2
      = (if x = s ∧ rl = true then inst.lastMessages else []) ++ lives := by
  rw [subscribe_open reg url inst s rl hreg hopen hs]
  dsimp only
  have hreg2 : (reg.set url { inst with subscribers := inst.subscribers ++ [s] }) url
      = some { inst with subscribers := inst.subscribers ++ [s] } := by
    simp [Registry.set]
  have hsubs2 : ({ inst with subscribers := inst.subscribers ++ [s] } :
      WebSocketInstance Msg).subscribers = inst.subscribers ++ [s] := rfl
  have hlast2 : ({ inst with subscribers := inst.subscribers ++ [s] } :
      WebSocketInstance Msg).lastMessages = inst.lastMessages := rfl
  have hmsg := runTasks_messages_deliveredTo lives
    (reg.set url { inst with subscribers := inst.subscribers ++ [s] }) url
    { inst with subscribers := inst.subscribers ++ [s] } x hreg2
  rw [hsubs2] at hmsg
  by_cases hc : rl = true ∧ 0 < inst.lastMessages.length
  · rw [if_pos hc, List.singleton_append,
      runTasks_replay_prefix (reg.set url { inst with subscribers := inst.subscribers ++ [s] })
        url { inst with subscribers := inst.subscribers ++ [s] } s hreg2]
    dsimp only
    rw [deliveredTo_append, hlast2, hmsg.1 hmem hnd2]
    by_cases hx : x = s
    · subst hx
      rw [deliveredTo_self, if_pos ⟨rfl, hc.1⟩]
    · rw [deliveredTo_other x s inst.lastMessages (fun h => hx h.symm),
        if_neg (fun hcc => hx hcc.1)]
  · rw [if_neg hc, List.nil_append, hmsg.1 hmem hnd2]
    rcases not_and_or.mp hc with hrl | hlen
    · rw [if_neg (fun hcc => hrl hcc.2), List.nil_append]
    · have hnil : inst.lastMessages = [] := by
        cases h2 : inst.lastMessages with
        | nil => rfl
        | cons a l =>
          exfalso
          apply hlen
          rw [h2]
          simp
      rw [hnil]
      simp

/-- **C2.**  A subscriber joining a live connection with `replayLast = true`
while `N ≤ 100` messages are buffered receives exactly those `N` buffered
messages, in buffer order, before every live message arriving after the
subscription (the replay being a deferred task, nothing is delivered during
the subscription call itself); a subscriber joining with the flag unset
receives only the live messages; and existing subscribers receive no
replay — only the live messages. -/
theorem replay_spec {Msg : Type} (url : String) (hist lives : List Msg) (subs : List ℕ)
    (s : ℕ) (hnd : subs.Nodup) (hs : s ∉ subs) (hlen : hist.length ≤ 100) :
    deliveredTo s (replayScenario url hist lives subs s true) = hist ++ lives
    ∧ deliveredTo s (replayScenario url hist lives subs s false) = lives
    ∧ (∀ t ∈ subs, t ≠ s → deliveredTo t (replayScenario url hist lives subs s true) = lives) := by
  have hnd2 : (subs ++ [s]).Nodup := by
    rw [List.nodup_append]
    exact ⟨hnd, List.nodup_singleton s,
      fun a ha hb => hs ((List.mem_singleton.mp hb) ▸ ha)⟩
  have hregS : (Registry.set Registry.empty url (scenarioInstance url hist subs) :
      Registry Msg) url = some (scenarioInstance url hist subs) := by
    simp [Registry.set]
  have master := fun (rl : Bool) (x : ℕ) (hmem : x ∈ subs ++ [s]) =>
    runTasks_after_subscribe (Registry.set Registry.empty url (scenarioInstance url hist subs))
      url (scenarioInstance url hist subs) s x rl lives hregS rfl hs hmem hnd2
  refine ⟨?_, ?_, ?_⟩
  · simpa [replayScenario, scenarioInstance] using master true s (by simp)
  · simpa [replayScenario, scenarioInstance] using master false s (by simp)
  · intro t ht hts
    simpa [replayScenario, scenarioInstance, hts] using master true t (by simp [ht])

/-- **C2 witness**: concrete run — history `[10, 11]`, existing subscriber
`0`, subscriber `1` joining with replay, live messages `[20]`. -/
theorem replay_spec_witness :
    deliveredTo 1 (replayScenario "wss://alarms" [10, 11] [20] [0] 1 true) = [10, 11, 20]
    ∧ deliveredTo 0 (replayScenario "wss://alarms" [10, 11] [20] [0] 1 true) = [20] := by
  have h := replay_spec "wss://alarms" [10, 11] [20] [0] 1 (by simp) (by simp) (by simp)
  exact ⟨h.1, h.2.2 0 (by simp) (by simp)⟩

/-! ### Claim C10: automatic reconnect discards subscribers and history -/

/-- **C10.**  Closing a connection removes its entry from the registry, and
a reconnect is scheduled iff the close was unclean; the instance the
scheduled `connect(url)` then creates and registers is brand-new: empty
subscriber set, empty status-subscriber set, empty history.  No callback
registered on the old instance is re-attached, and a message arriving on
the reconnected instance is delivered to nobody until someone subscribes
again. -/
theorem reconnect_fresh_spec {Msg : Type} (reg : Registry Msg) (url : String)
    (inst : WebSocketInstance Msg) (hreg : reg url = some inst) (wasClean : Bool) :
    (handleClose reg url wasClean).1 url = none
    ∧ (handleClose reg url wasClean).2 = !wasClean
    ∧ (wasClean = false →
        (connect (handleClose reg url wasClean).1 url).1.subscribers = []
        ∧ (connect (handleClose reg url wasClean).1 url).1.statusSubscribers = []
        ∧ (connect (handleClose reg url wasClean).1 url).1.lastMessages = []
        ∧ (connect (handleClose reg url wasClean).1 url).2 url
            = some (connect (handleClose reg url wasClean).1 url).1
        ∧ (∀ c ∈ inst.subscribers,
            c ∉ (connect (handleClose reg url wasClean).1 url).1.subscribers)
        ∧ (∀ m : Msg,
            (onMessage (connect (handleClose reg url wasClean).1 url).1 (some m)).2 = [])) := by
  have hdel : (handleClose reg url wasClean).1 url = none := by
    simp [handleClose, Registry.delete]
  refine ⟨hdel, rfl, fun _ => ⟨?_, ?_, ?_, ?_, ?_, ?_⟩⟩ <;>
    simp [connect, hdel, Registry.set, onMessage]

/-- **C10 witness**: an unclean close of a CLOSED-socket entry carrying a
subscriber and history reconnects to an instance with no subscribers and no
history. -/
theorem reconnect_fresh_spec_witness :
    (connect (handleClose (Registry.set Registry.empty "wss://a"
        { readyState := ReadyState.CLOSED, url := "wss://a", subscribers := [5],
          statusSubscribers := [8], isConnected := false, isConnecting := false,
          error := none, lastMessages := [1, 2, 3], maxMessages := 100 } : Registry ℕ)
        "wss://a" false).1 "wss://a").1.subscribers = []
    ∧ (connect (handleClose (Registry.set Registry.empty "wss://a"
        { readyState := ReadyState.CLOSED, url := "wss://a", subscribers := [5],
          statusSubscribers := [8], isConnected := false, isConnecting := false,
          error := none, lastMessages := [1, 2, 3], maxMessages := 100 } : Registry ℕ)
        "wss://a" false).1 "wss://a").1.lastMessages = [] := by
  have h := reconnect_fresh_spec (Registry.set Registry.empty "wss://a"
      { readyState := ReadyState.CLOSED, url := "wss://a", subscribers := [5],
        statusSubscribers := [8], isConnected := false, isConnecting := false,
        error := none, lastMessages := [1, 2, 3], maxMessages := 100 } : Registry ℕ)
    "wss://a"
    { readyState := ReadyState.CLOSED, url := "wss://a", subscribers := [5],
      statusSubscribers := [8], isConnected := false, isConnecting := false,
      error := none, lastMessages := [1, 2, 3], maxMessages := 100 }
    (by simp [Registry.set]) false
  exact ⟨(h.2.2 rfl).1, (h.2.2 rfl).2.2.1⟩

end TskCsai
